import Mathlib

/-!
Verification development for the storyshort recording session engine.

The definitions below are shallow embeddings of the Go source:
bytes are `Nat` values reduced mod 256 where the width matters,
the 16-bit sample decoding follows the exact expression
`int16(b[2i]) | int16(b[2i+1])<<8` of `SaveAudio`, file-system side
effects are recorded as explicit effect lists, and the concurrent
capture loop plus `StopRecording` are modelled as a small-step
transition system over an explicit shared state.
-/

namespace StoryShort

/-! ### PCM byte-pair decoding (SaveAudio inner loop) -/

/-- The value of `int16(lo) | int16(hi)<<8` in Go, for bytes `lo`, `hi`:
the little-endian signed 16-bit decoding of the pair. -/
def decodeLE16 (lo hi : Nat) : Int :=
  let v : Nat := (lo % 256) + 256 * (hi % 256)
  if v < 32768 then (v : Int) else (v : Int) - 65536

/-- The sample list built by `SaveAudio`'s loop: `len(audioData)/2` slots,
slot `i` filled with the decoded pair when `i*2+1 < len(audioData)`
(otherwise it keeps the zero value, as in Go). -/
def saveAudioSamples (B : List Nat) : List Int :=
  (List.range (B.length / 2)).map (fun i =>
    if 2 * i + 1 < B.length then decodeLE16 (B.getD (2 * i) 0) (B.getD (2 * i + 1) 0)
    else 0)

/-! ### WAV container model (go-wav writer as used by SaveAudio) -/

/-- Container file model: header fields passed to `wav.NewWriter`
plus the written sample stream. -/
structure WavFile where
  numSamples : Nat
  numChannels : Nat
  sampleRateHz : Nat
  bitDepth : Nat
  data : List Int
  deriving Repr, DecidableEq

/-- The container `SaveAudio` writes for buffer `B`:
`wav.NewWriter(file, uint32(len(B)/2), 1, 44100, 16)` followed by
`WriteSamples` of the decoded pairs. The header sample count is a
`uint32` conversion, so it wraps modulo `2^32`; the sample slice itself
is allocated with the unwrapped Go `int` length `len(B)/2`. -/
def wavWriterOf (B : List Nat) : WavFile :=
  { numSamples := B.length / 2 % 2 ^ 32
    numChannels := 1
    sampleRateHz := 44100
    bitDepth := 16
    data := saveAudioSamples B }

/-- Parsing the container back: the header's sample count bounds the
samples read from the data chunk. -/
def wavParseSamples (w : WavFile) : List Int :=
  w.data.take w.numSamples

theorem wavParseSamples_def (w : WavFile) :
    wavParseSamples w = w.data.take w.numSamples := rfl

theorem wavWriterOf_numSamples (B : List Nat) :
    (wavWriterOf B).numSamples = B.length / 2 % 2 ^ 32 := rfl

theorem wavWriterOf_data (B : List Nat) :
    (wavWriterOf B).data = saveAudioSamples B := rfl

/-! ### SaveAudio with file-system effects -/

/-- A recorded file-system side effect. -/
inductive FSOp
  | create (path : String)
  | remove (path : String)
  deriving Repr, DecidableEq

/-- `filepath.Join(sessionDir, "recording.wav")`. -/
def recordingPath (sessionDir : String) : String :=
  sessionDir ++ "/recording.wav"

/-- `AudioRecorder.SaveAudio` up to (and without) the compression stage:
empty buffer is the distinguished `no_audio_data` outcome and happens
before any file creation; `createOk` / `writeOk` model the fallibility
of `os.Create` and `WriteSamples`. -/
def saveAudioFn (sessionDir : String) (B : List Nat) (createOk writeOk : Bool) :
    Except String (String × WavFile) × List FSOp :=
  if B.length = 0 then (.error "no_audio_data", [])
  else
    let filePath := recordingPath sessionDir
    if createOk = false then (.error "io_create_failed", [])
    else if writeOk = false then (.error "io_write_failed", [.create filePath])
    else (.ok (filePath, wavWriterOf B), [.create filePath])

/-! ### Basic lemmas about the sample loop -/

theorem saveAudioSamples_length (B : List Nat) :
    (saveAudioSamples B).length = B.length / 2 := by
  simp [saveAudioSamples]

theorem saveAudioSamples_guard (B : List Nat) (i : Nat) (hi : i < B.length / 2) :
    2 * i + 1 < B.length := by
  omega

theorem saveAudioSamples_getD (B : List Nat) (i : Nat) (hi : i < B.length / 2) :
    (saveAudioSamples B).getD i 0 =
      decodeLE16 (B.getD (2 * i) 0) (B.getD (2 * i + 1) 0) := by
  have hlen : (saveAudioSamples B).length = B.length / 2 := saveAudioSamples_length B
  have hi2 : i < (saveAudioSamples B).length := by omega
  rw [List.getD_eq_getElem _ _ hi2]
  simp only [saveAudioSamples, List.getElem_map, List.getElem_range]
  rw [if_pos (saveAudioSamples_guard B i hi)]

theorem getD_dropLast (B : List Nat) (j : Nat) (hj : j < B.length - 1) :
    B.dropLast.getD j 0 = B.getD j 0 := by
  have h1 : j < B.dropLast.length := by simp [List.length_dropLast]; omega
  have h2 : j < B.length := by omega
  rw [List.getD_eq_getElem _ _ h1, List.getD_eq_getElem _ _ h2]
  exact List.getElem_dropLast B j h1

/-- A concrete buffer of `2^33` zero bytes: about 27 hours of 44.1 kHz
mono 16-bit capture, the smallest power-of-two length whose sample count
`2^32` overflows the `uint32` header field. Kept irreducible so proofs
never evaluate the `2^33`-element list. -/
def hugeBuf : List Nat := List.replicate (2 ^ 33) 0

theorem hugeBuf_length : hugeBuf.length = 2 ^ 33 :=
  List.length_replicate (2 ^ 33) 0

attribute [irreducible] hugeBuf

theorem hugeBuf_count_wraps : hugeBuf.length / 2 % 2 ^ 32 = 0 := by
  rw [hugeBuf_length]
  norm_num

/-- C1 counterexample: the concrete nonempty even-length buffer `hugeBuf`
of `2^33` zero bytes. Its sample count `len(B)/2 = 2^32` wraps to `0` in
the `uint32` conversion of the header field, so the produced container
parses back to `0` samples — not the `len(B)/2` the claim promises for
every even-length buffer. -/
theorem c1_counterexample_header_wrap :
    hugeBuf ≠ [] ∧
    hugeBuf.length % 2 = 0 ∧
    hugeBuf.length / 2 = 2 ^ 32 ∧
    (wavParseSamples (wavWriterOf hugeBuf)).length = 0 ∧
    (wavParseSamples (wavWriterOf hugeBuf)).length ≠ hugeBuf.length / 2 := by
  have hdiv : hugeBuf.length / 2 = 2 ^ 32 := by
    rw [hugeBuf_length]; norm_num
  have hparse : (wavParseSamples (wavWriterOf hugeBuf)).length = 0 := by
    rw [wavParseSamples_def, wavWriterOf_numSamples, wavWriterOf_data,
      hugeBuf_count_wraps, List.take_zero, List.length_nil]
  refine ⟨?_, ?_, hdiv, hparse, ?_⟩
  · intro h0
    have h1 := congrArg List.length h0
    rw [hugeBuf_length] at h1
    norm_num at h1
  · rw [hugeBuf_length]; norm_num
  · rw [hparse, hdiv]; norm_num

/-- C1 amended: for every nonempty even-length byte buffer `B` whose
sample count `len(B)/2` fits in the `uint32` header field (below `2^32`),
`SaveAudio` succeeds, creates exactly the session recording file, and the
written container parses back to exactly `len(B)/2` samples, sample `i`
being the little-endian signed 16-bit decoding of bytes `B[2i], B[2i+1]`;
in particular a buffer of 88200 bytes yields a header sample count of
44100. -/
theorem c1_save_audio_even (d : String) (B : List Nat)
    (hne : B ≠ []) (_heven : B.length % 2 = 0)
    (hbound : B.length / 2 < 2 ^ 32) :
    saveAudioFn d B true true =
      (.ok (recordingPath d, wavWriterOf B), [.create (recordingPath d)]) ∧
    (wavParseSamples (wavWriterOf B)).length = B.length / 2 ∧
    (∀ i, i < B.length / 2 →
      (wavParseSamples (wavWriterOf B)).getD i 0 =
        decodeLE16 (B.getD (2 * i) 0) (B.getD (2 * i + 1) 0)) ∧
    (B.length = 88200 → (wavWriterOf B).numSamples = 44100) := by
  have hlen : B.length ≠ 0 := by
    intro h0
    exact hne (List.eq_nil_of_length_eq_zero h0)
  have hmod : B.length / 2 % 2 ^ 32 = B.length / 2 := Nat.mod_eq_of_lt hbound
  have hparse : wavParseSamples (wavWriterOf B) = saveAudioSamples B := by
    simp only [wavParseSamples, wavWriterOf]
    rw [hmod]
    exact List.take_of_length_le (saveAudioSamples_length B).le
  refine ⟨?_, ?_, ?_, ?_⟩
  · simp [saveAudioFn, hlen]
  · rw [hparse]; exact saveAudioSamples_length B
  · intro i hi
    rw [hparse]
    exact saveAudioSamples_getD B i hi
  · intro h88
    simp only [wavWriterOf, h88]
    norm_num

theorem c1_save_audio_even_witness :
    ([1, 2, 252, 255] : List Nat) ≠ [] ∧ ([1, 2, 252, 255] : List Nat).length % 2 = 0 ∧
    ([1, 2, 252, 255] : List Nat).length / 2 < 2 ^ 32 ∧
    (saveAudioFn "s" [1, 2, 252, 255] true true =
      (.ok (recordingPath "s", wavWriterOf [1, 2, 252, 255]),
        [.create (recordingPath "s")]) ∧
    (wavParseSamples (wavWriterOf [1, 2, 252, 255])).length = 2 ∧
    (wavParseSamples (wavWriterOf [1, 2, 252, 255])).getD 0 0 = 513 ∧
    (wavParseSamples (wavWriterOf [1, 2, 252, 255])).getD 1 0 = -4) := by
  have h := c1_save_audio_even "s" [1, 2, 252, 255] (by decide) (by decide)
    (by norm_num)
  refine ⟨by decide, by decide, by norm_num, h.1, h.2.1, ?_, ?_⟩
  · have := h.2.2.1 0 (by decide)
    rw [this]; decide
  · have := h.2.2.1 1 (by decide)
    rw [this]; decide

/-- C6: for every odd-length byte buffer `B`, the sample loop drops exactly
the trailing unpaired byte: it yields the same sample sequence as `B[:-1]`
and the sample count is `⌊len(B)/2⌋`. -/
theorem c6_odd_drops_trailing_byte (B : List Nat) (hodd : B.length % 2 = 1) :
    saveAudioSamples B = saveAudioSamples B.dropLast ∧
    (saveAudioSamples B).length = B.length / 2 := by
  have hdl : B.dropLast.length = B.length - 1 := List.length_dropLast B
  have hdiv : B.dropLast.length / 2 = B.length / 2 := by omega
  constructor
  · apply List.ext_getElem
    · simp only [saveAudioSamples_length, hdl]
      omega
    · intro i h1 h2
      have hi : i < B.length / 2 := by
        have := saveAudioSamples_length B
        omega
      have hgd1 : (saveAudioSamples B).getD i 0 = (saveAudioSamples B)[i] :=
        List.getD_eq_getElem _ _ h1
      have hgd2 : (saveAudioSamples B.dropLast).getD i 0 =
          (saveAudioSamples B.dropLast)[i] := List.getD_eq_getElem _ _ h2
      rw [← hgd1, ← hgd2, saveAudioSamples_getD B i hi,
        saveAudioSamples_getD B.dropLast i (by omega)]
      rw [getD_dropLast B (2 * i) (by omega), getD_dropLast B (2 * i + 1) (by omega)]
  · exact saveAudioSamples_length B

theorem c6_odd_drops_trailing_byte_witness :
    ([7, 8, 9] : List Nat).length % 2 = 1 ∧
    (saveAudioSamples [7, 8, 9] = saveAudioSamples ([7, 8, 9] : List Nat).dropLast ∧
      (saveAudioSamples [7, 8, 9]).length = 1) :=
  ⟨by decide, c6_odd_drops_trailing_byte [7, 8, 9] (by decide)⟩

/-- C3: for every session directory and every fallibility of the file
system, `SaveAudio` on an empty buffer returns the distinguished
`no_audio_data` error and performs no file creation at all. -/
theorem c3_empty_buffer_no_audio (d : String) (createOk writeOk : Bool) :
    saveAudioFn d [] createOk writeOk = (.error "no_audio_data", []) := by
  simp [saveAudioFn]

/-! ### Compression stage (AudioRecorder.compressAudio and the SaveAudio
variant that calls it) -/

/-- The final path segment of a slash-separated path (`filepath.Base`
for slash-normal paths). -/
def baseSegment (p : List Char) : List Char :=
  (p.reverse.takeWhile (fun c => c ≠ '/')).reverse

/-- `filepath.Ext` of the final segment: the suffix starting at the last
dot, empty when the segment has no dot. -/
def extSuffix (seg : List Char) : List Char :=
  if seg.contains '.' then
    '.' :: (seg.reverse.takeWhile (fun c => c ≠ '.')).reverse
  else []

/-- `filepath.Join(filepath.Dir(p), TrimSuffix(Base(p), Ext(p)) + "_compressed.mp3")`
for slash-normal paths: the input path with its extension replaced. -/
def compressedPathOf (inputPath : String) : String :=
  let p := inputPath.data
  let seg := baseSegment p
  let trimmed := seg.take (seg.length - (extSuffix seg).length)
  ⟨p.take (p.length - seg.length) ++ trimmed⟩ ++ "_compressed.mp3"

/-- External environment seen by `compressAudio`: which transcoders
`exec.LookPath` finds, whether `cmd.Run` succeeds, and the `os.Stat`
outcomes (`some size` on success) for the compressed and original files. -/
structure CompressEnv where
  ffmpegAvailable : Bool
  soxAvailable : Bool
  runOk : Bool
  statCompressedSize : Option Nat
  statOriginalSize : Option Nat
  deriving Repr, DecidableEq

/-- `AudioRecorder.compressAudio`: pick ffmpeg else sox (error when
neither), run the transcoder, stat the compressed then the original
file (failing on a stat error), then remove the input and return the
compressed path. The stat sizes are only printed, never compared with
zero. -/
def compressAudioFn (env : CompressEnv) (inputPath : String) :
    Except String String × List FSOp :=
  let compressedPath := compressedPathOf inputPath
  if env.ffmpegAvailable = false ∧ env.soxAvailable = false then
    (.error "no compression tool available (ffmpeg or sox required)", [])
  else if env.runOk = false then
    (.error "compression failed", [])
  else
    match env.statCompressedSize with
    | none => (.error "failed to stat compressed file", [])
    | some _ =>
      match env.statOriginalSize with
      | none => (.error "failed to stat original file", [])
      | some _ => (.ok compressedPath, [.remove inputPath])

/-- The `SaveAudio` variant that ends with the compression stage: a
compression error is swallowed (warning printed) and the uncompressed
path is returned with a nil error. -/
def saveAudioWithCompress (sessionDir : String) (B : List Nat)
    (createOk writeOk : Bool) (env : CompressEnv) :
    Except String String × List FSOp :=
  let sres := saveAudioFn sessionDir B createOk writeOk
  match sres.1 with
  | .error e => (.error e, sres.2)
  | .ok (filePath, _) =>
    let cres := compressAudioFn env filePath
    match cres.1 with
    | .error _ => (.ok filePath, sres.2 ++ cres.2)
    | .ok compressedPath => (.ok compressedPath, sres.2 ++ cres.2)

theorem compressAudioFn_error_no_ops (env : CompressEnv) (p e : String)
    (h : (compressAudioFn env p).1 = .error e) :
    (compressAudioFn env p).2 = [] := by
  obtain ⟨ff, so, ro, sc, sor⟩ := env
  cases ff <;> cases so <;> cases ro <;> cases sc <;> cases sor <;>
    simp_all [compressAudioFn]

/-- C4: whenever the compression stage fails — for any failure mode the
environment can produce — `SaveAudio` swallows the error: it returns the
original uncompressed path with a nil error, the only file-system effect
is creating that file (no removal, so the uncompressed artifact is
retained unchanged), and the session completes successfully. -/
theorem c4_compression_failure_swallowed (d : String) (B : List Nat)
    (env : CompressEnv) (e : String) (hne : B ≠ [])
    (hc : (compressAudioFn env (recordingPath d)).1 = .error e) :
    saveAudioWithCompress d B true true env =
      (.ok (recordingPath d), [.create (recordingPath d)]) := by
  have hlen : B.length ≠ 0 := by
    intro h0
    exact hne (List.eq_nil_of_length_eq_zero h0)
  have hops := compressAudioFn_error_no_ops env (recordingPath d) e hc
  have hsave : saveAudioFn d B true true =
      (.ok (recordingPath d, wavWriterOf B), [.create (recordingPath d)]) := by
    simp [saveAudioFn, hlen]
  unfold saveAudioWithCompress
  simp only [hsave, hc, hops, List.append_nil]

theorem c4_compression_failure_swallowed_witness :
    ([1, 2] : List Nat) ≠ [] ∧
    (compressAudioFn ⟨false, false, true, none, none⟩ (recordingPath "s")).1 =
      .error "no compression tool available (ffmpeg or sox required)" ∧
    saveAudioWithCompress "s" [1, 2] true true ⟨false, false, true, none, none⟩ =
      (.ok (recordingPath "s"), [.create (recordingPath "s")]) := by
  refine ⟨by decide, rfl, ?_⟩
  exact c4_compression_failure_swallowed "s" [1, 2] ⟨false, false, true, none, none⟩
    "no compression tool available (ffmpeg or sox required)" (by decide) rfl

/-- C5 counterexample: a run in which the transcoder reports success and the
compressed output file exists but is empty (stat size 0). `compressAudio`
still succeeds and still removes the uncompressed predecessor: the claimed
non-emptiness verification does not happen. -/
theorem c5_counterexample_empty_output :
    compressAudioFn ⟨true, false, true, some 0, some 1000⟩ "a/recording.wav" =
      (.ok "a/recording_compressed.mp3", [.remove "a/recording.wav"]) := rfl

/-- C5 amended: on compression success, `compressAudio` has verified only
that both the output and the original file exist (their `os.Stat` calls
succeeded — the size is never compared with zero), and it always removes the
uncompressed predecessor and returns the compressed path, so the two files
are never both retained by a successful run. -/
theorem c5_success_replaces_predecessor (env : CompressEnv) (p c : String)
    (hs : (compressAudioFn env p).1 = .ok c) :
    c = compressedPathOf p ∧
    (compressAudioFn env p).2 = [.remove p] ∧
    env.statCompressedSize ≠ none ∧ env.statOriginalSize ≠ none := by
  obtain ⟨ff, so, ro, sc, sor⟩ := env
  cases ff <;> cases so <;> cases ro <;> cases sc <;> cases sor <;>
    simp_all [compressAudioFn]

theorem c5_success_replaces_predecessor_witness :
    (compressAudioFn ⟨true, false, true, some 5, some 9⟩ "a/recording.wav").1 =
      .ok "a/recording_compressed.mp3" ∧
    ("a/recording_compressed.mp3" = compressedPathOf "a/recording.wav" ∧
      (compressAudioFn ⟨true, false, true, some 5, some 9⟩ "a/recording.wav").2 =
        [.remove "a/recording.wav"] ∧
      (some 5 : Option Nat) ≠ none ∧ (some 9 : Option Nat) ≠ none) :=
  ⟨rfl, c5_success_replaces_predecessor ⟨true, false, true, some 5, some 9⟩
    "a/recording.wav" "a/recording_compressed.mp3" rfl⟩

/-! ### Session directory naming (createSessionDir) -/

/-- `strings.ReplaceAll` for a one-character pattern and one-character
replacement: character-wise substitution. -/
def goReplaceChar (old new : Char) (s : List Char) : List Char :=
  s.map (fun c => if c = old then new else c)

/-- The nine sequential `strings.ReplaceAll` calls of `createSessionDir`,
in source order. -/
def cleanTitleChars (t : List Char) : List Char :=
  goReplaceChar '\"' '_'
    (goReplaceChar '>' '_'
      (goReplaceChar '<' '_'
        (goReplaceChar '|' '_'
          (goReplaceChar '?' '_'
            (goReplaceChar '*' '_'
              (goReplaceChar ':' '_'
                (goReplaceChar '\\' '_'
                  (goReplaceChar '/' '_' t))))))))

/-- The characters `createSessionDir` sanitizes. -/
def unsafeTitleChars : List Char :=
  ['/', '\\', ':', '*', '?', '|', '<', '>', '\"']

/-- A clock reading, standing for the Go `time.Time` session start. -/
structure GoTime where
  year : Nat
  month : Nat
  day : Nat
  hour : Nat
  minute : Nat
  second : Nat
  deriving Repr, DecidableEq

def pad2 (n : Nat) : String :=
  if n < 10 then "0" ++ toString n else toString n

def pad4 (n : Nat) : String :=
  if n < 10 then "000" ++ toString n
  else if n < 100 then "00" ++ toString n
  else if n < 1000 then "0" ++ toString n
  else toString n

/-- Go `startTime.Format("2006-01-02_15-04-05")`: zero-padded
`YYYY-MM-DD_HH-MM-SS`. -/
def formatStartTime (t : GoTime) : String :=
  pad4 t.year ++ "-" ++ pad2 t.month ++ "-" ++ pad2 t.day ++ "_" ++
    pad2 t.hour ++ "-" ++ pad2 t.minute ++ "-" ++ pad2 t.second

/-- The directory name `createSessionDir` builds:
`fmt.Sprintf("%s_%s", cleanTitle, startTime.Format(...))`. -/
def sessionNameOf (title : String) (t : GoTime) : String :=
  ⟨cleanTitleChars title.data⟩ ++ "_" ++ formatStartTime t

/-- `createSessionDir` itself: joins the output directory with the session
name and issues the `os.MkdirAll`, returning the session path. -/
def createSessionDirFn (outputDir title : String) (t : GoTime) (mkdirOk : Bool) :
    Except String String × List FSOp :=
  let sessionDir := outputDir ++ "/" ++ sessionNameOf title t
  if mkdirOk then (.ok sessionDir, [.create sessionDir])
  else (.error "mkdir_failed", [])

theorem cleanTitleChars_eq_map (t : List Char) :
    cleanTitleChars t = t.map (fun c => if c ∈ unsafeTitleChars then '_' else c) := by
  simp only [cleanTitleChars, goReplaceChar, List.map_map]
  apply List.map_congr_left
  intro c _
  by_cases h : c ∈ unsafeTitleChars
  · simp only [unsafeTitleChars, List.mem_cons, List.not_mem_nil, or_false] at h
    rcases h with h | h | h | h | h | h | h | h | h <;> subst h <;> decide
  · rw [if_neg h]
    simp only [unsafeTitleChars, List.mem_cons, List.not_mem_nil, or_false] at h
    push_neg at h
    obtain ⟨h1, h2, h3, h4, h5, h6, h7, h8, h9⟩ := h
    simp [h1, h2, h3, h4, h5, h6, h7, h8, h9]

/-- C7: the session directory name is the title with each of the nine
characters `/ \ : * ? | < > "` replaced by `_`, followed by an underscore
and the start timestamp formatted as zero-padded `YYYY-MM-DD_HH-MM-SS`;
in particular, title `Q3 Plan/Review` at 2024-01-02T03:04:05 names the
directory `Q3 Plan_Review_2024-01-02_03-04-05`. -/
theorem c7_session_dir_name :
    (∀ (title : String) (t : GoTime),
      sessionNameOf title t =
        ⟨title.data.map (fun c => if c ∈ unsafeTitleChars then '_' else c)⟩ ++
          "_" ++ formatStartTime t) ∧
    sessionNameOf "Q3 Plan/Review" ⟨2024, 1, 2, 3, 4, 5⟩ =
      "Q3 Plan_Review_2024-01-02_03-04-05" := by
  constructor
  · intro title t
    rw [sessionNameOf, cleanTitleChars_eq_map]
  · decide

/-! ### Provider response handling (transcribeAudio / generateSummary) -/

/-- A decoded JSON value, as produced by `json.Decoder` into
`map[string]any`. -/
inductive GoJson
  | null
  | boolean (b : Bool)
  | number (n : Int)
  | str (s : String)
  | arr (xs : List GoJson)
  | obj (fields : List (String × GoJson))

/-- Field access on a decoded object, `none` when absent or not an
object. -/
def jsonField (j : GoJson) (k : String) : Option GoJson :=
  match j with
  | .obj fields => fields.lookup k
  | _ => none

/-- The error string `fmt.Errorf("OpenAI API error %d: %s", status, body)`
used by both request functions on a non-OK status. -/
def apiErrorMsg (status : Nat) (body : String) : String :=
  "OpenAI API error " ++ toString status ++ ": " ++ body

/-- The `choices[0].message.content` extraction of `generateSummary`.
A missing or ill-typed `choices` is the `invalid response format` error;
a `choices[0]` that is not an object makes the Go type assertion panic,
modelled as its own error value. -/
def extractContent (response : GoJson) : Except String String :=
  match jsonField response "choices" with
  | some (.arr (c0 :: _)) =>
    match jsonField c0 "message" with
    | some m =>
      match jsonField m "content" with
      | some (.str s) => .ok s
      | _ => .error "invalid response format"
    | none =>
      match c0 with
      | .obj _ => .error "invalid response format"
      | _ => .error "panic: interface conversion"
  | _ => .error "invalid response format"

/-- The response handling tail of `OpenAIProcessor.generateSummary`:
non-200 status propagates status and body, then the body is decoded,
`choices[0].message.content` extracted, and `json.Unmarshal` into
`{title, summary}` attempted — on unmarshal failure the raw content
becomes the summary under the fixed title `meeting_summary`, with a nil
error. `unmarshalTS` stands for the standard-library unmarshal
(`some (title, summary)` on success). The pair returned is
`(summary, title)`, as in the source. -/
def generateSummaryResp (unmarshalTS : String → Option (String × String))
    (status : Nat) (body : String) (decoded : Option GoJson) :
    Except String (String × String) :=
  if status ≠ 200 then .error (apiErrorMsg status body)
  else
    match decoded with
    | none => .error "decode_failed"
    | some r =>
      match extractContent r with
      | .error e => .error e
      | .ok content =>
        match unmarshalTS content with
        | none => .ok (content, "meeting_summary")
        | some ts => .ok (ts.2, ts.1)

/-- The response handling tail of `OpenAIProcessor.transcribeAudio`:
non-200 status propagates status and body, otherwise the decoded
`text` field is returned. -/
def transcribeResp (status : Nat) (body : String) (decoded : Option String) :
    Except String String :=
  if status ≠ 200 then .error (apiErrorMsg status body)
  else
    match decoded with
    | none => .error "decode_failed"
    | some t => .ok t

/-- C8: whenever the extracted message content fails to unmarshal as a
JSON object with string `title` and `summary` fields, `generateSummary`
returns no error: the whole raw content is the summary and the title is
the fixed placeholder `meeting_summary`. -/
theorem c8_malformed_summary_fallback
    (unmarshalTS : String → Option (String × String))
    (body content : String) (r : GoJson)
    (hx : extractContent r = .ok content)
    (hu : unmarshalTS content = none) :
    generateSummaryResp unmarshalTS 200 body (some r) =
      .ok (content, "meeting_summary") := by
  simp [generateSummaryResp, hx, hu]

theorem c8_malformed_summary_fallback_witness :
    extractContent (.obj [("choices", .arr
        [.obj [("message", .obj [("content", .str "not json")])]])]) =
      .ok "not json" ∧
    (fun _ : String => (none : Option (String × String))) "not json" = none ∧
    generateSummaryResp (fun _ => none) 200 "b" (some (.obj [("choices", .arr
        [.obj [("message", .obj [("content", .str "not json")])]])])) =
      .ok ("not json", "meeting_summary") :=
  ⟨rfl, rfl, c8_malformed_summary_fallback (fun _ => none) "b" "not json"
    (.obj [("choices", .arr [.obj [("message", .obj [("content", .str "not json")])]])])
    rfl rfl⟩

/-- C9: for every response whose status is outside the 2xx range, both
request functions return the error carrying the provider status code and
raw body (the exact `OpenAI API error <status>: <body>` message), never a
success value. -/
theorem c9_non2xx_propagates (status : Nat) (body : String)
    (decodedText : Option String) (decodedJson : Option GoJson)
    (unmarshalTS : String → Option (String × String))
    (h : status < 200 ∨ 300 ≤ status) :
    transcribeResp status body decodedText = .error (apiErrorMsg status body) ∧
    generateSummaryResp unmarshalTS status body decodedJson =
      .error (apiErrorMsg status body) := by
  have hne : status ≠ 200 := by omega
  constructor
  · simp [transcribeResp, hne]
  · simp [generateSummaryResp, hne]

theorem c9_non2xx_propagates_witness :
    (404 < 200 ∨ 300 ≤ 404) ∧
    transcribeResp 404 "nf" (some "t") = .error (apiErrorMsg 404 "nf") ∧
    generateSummaryResp (fun _ => none) 404 "nf" none =
      .error (apiErrorMsg 404 "nf") := by
  have h := c9_non2xx_propagates 404 "nf" (some "t") none (fun _ => none)
    (by omega)
  exact ⟨by omega, h.1, h.2⟩

/-! ### StopRecording / recordAudio interleaving (C2)

A small-step model of the two concurrent tasks. The capture goroutine
runs `recordAudio`: check `isRecording`, read a chunk (which may return
data or end the stream), append, and on exit close the stdout pipe, reap
the process and — via `defer` — close `recordingDone`. The controller
runs `StopRecording`: clear the flag, kill the process, then block
receiving from `recordingDone`, which is enabled only once the channel
is closed. -/

/-- Program counter of the capture goroutine. -/
inductive CapPC
  | checkFlag
  | doRead
  | cleanup
  | terminated
  deriving Repr, DecidableEq

/-- Program counter of the controller inside `StopRecording`. -/
inductive CtrlPC
  | setFlag
  | killStep
  | waitDone
  | returned
  deriving Repr, DecidableEq

/-- Shared state of one recording session during `StopRecording`. -/
structure RecState where
  isRecording : Bool
  audioData : List Nat
  doneClosed : Bool
  cap : CapPC
  ctrl : CtrlPC
  deriving Repr, DecidableEq

/-- One interleaved step of either task. A read may deliver a byte and
append it regardless of the current flag value (the flag is only checked
at the top of the loop, as in the source), or end the stream. The done
channel is closed exactly when the capture goroutine finishes; the
controller's receive is enabled only once it is closed. -/
inductive RecStep : RecState → RecState → Prop
  | checkTrue (s : RecState) (h : s.cap = .checkFlag) (hr : s.isRecording = true) :
      RecStep s { s with cap := .doRead }
  | checkFalse (s : RecState) (h : s.cap = .checkFlag) (hr : s.isRecording = false) :
      RecStep s { s with cap := .cleanup }
  | readByte (s : RecState) (b : Nat) (h : s.cap = .doRead) :
      RecStep s { s with cap := .checkFlag, audioData := s.audioData ++ [b] }
  | readEnd (s : RecState) (h : s.cap = .doRead) :
      RecStep s { s with cap := .cleanup }
  | finishCapture (s : RecState) (h : s.cap = .cleanup) :
      RecStep s { s with cap := .terminated, doneClosed := true }
  | stopSetFlag (s : RecState) (h : s.ctrl = .setFlag) :
      RecStep s { s with ctrl := .killStep, isRecording := false }
  | stopKill (s : RecState) (h : s.ctrl = .killStep) :
      RecStep s { s with ctrl := .waitDone }
  | stopJoin (s : RecState) (h : s.ctrl = .waitDone) (hd : s.doneClosed = true) :
      RecStep s { s with ctrl := .returned }

/-- Zero or more interleaved steps. -/
def RecReach : RecState → RecState → Prop :=
  Relation.ReflTransGen RecStep

/-- A session in `Recording` state at the moment `StopRecording` is
invoked, with whatever bytes `B` were captured so far. -/
def initRecState (B : List Nat) : RecState :=
  { isRecording := true, audioData := B, doneClosed := false,
    cap := .checkFlag, ctrl := .setFlag }

/-- The synchronization invariant: the done channel is closed only after
the capture goroutine has fully terminated, and the controller has
returned only after the done channel was closed. -/
def RecInv (s : RecState) : Prop :=
  (s.doneClosed = true → s.cap = .terminated) ∧
  (s.ctrl = .returned → s.doneClosed = true)

theorem recInv_init (B : List Nat) : RecInv (initRecState B) := by
  constructor <;> intro h <;> simp [initRecState] at h

theorem recInv_step (s sn : RecState) (hInv : RecInv s) (hstep : RecStep s sn) :
    RecInv sn := by
  obtain ⟨h1, h2⟩ := hInv
  cases hstep with
  | checkTrue h hr =>
    refine ⟨fun hd => ?_, fun hc => ?_⟩
    · rw [h1 hd] at h; exact CapPC.noConfusion h
    · exact h2 hc
  | checkFalse h hr =>
    refine ⟨fun hd => ?_, fun hc => ?_⟩
    · rw [h1 hd] at h; exact CapPC.noConfusion h
    · exact h2 hc
  | readByte b h =>
    refine ⟨fun hd => ?_, fun hc => ?_⟩
    · rw [h1 hd] at h; exact CapPC.noConfusion h
    · exact h2 hc
  | readEnd h =>
    refine ⟨fun hd => ?_, fun hc => ?_⟩
    · rw [h1 hd] at h; exact CapPC.noConfusion h
    · exact h2 hc
  | finishCapture h =>
    exact ⟨fun _ => rfl, fun _ => rfl⟩
  | stopSetFlag h =>
    refine ⟨h1, fun hc => ?_⟩
    exact CtrlPC.noConfusion hc
  | stopKill h =>
    refine ⟨h1, fun hc => ?_⟩
    exact CtrlPC.noConfusion hc
  | stopJoin h hd =>
    exact ⟨h1, fun _ => hd⟩

theorem recInv_reach (B : List Nat) (s : RecState)
    (h : RecReach (initRecState B) s) : RecInv s := by
  induction h with
  | refl => exact recInv_init B
  | tail _ hstep ih => exact recInv_step _ _ ih hstep

theorem recStep_none_after_return (s sn : RecState)
    (hcap : s.cap = .terminated) (hctrl : s.ctrl = .returned) :
    ¬ RecStep s sn := by
  intro hstep
  cases hstep with
  | checkTrue h hr => rw [hcap] at h; exact CapPC.noConfusion h
  | checkFalse h hr => rw [hcap] at h; exact CapPC.noConfusion h
  | readByte b h => rw [hcap] at h; exact CapPC.noConfusion h
  | readEnd h => rw [hcap] at h; exact CapPC.noConfusion h
  | finishCapture h => rw [hcap] at h; exact CapPC.noConfusion h
  | stopSetFlag h => rw [hctrl] at h; exact CtrlPC.noConfusion h
  | stopKill h => rw [hctrl] at h; exact CtrlPC.noConfusion h
  | stopJoin h hd => rw [hctrl] at h; exact CtrlPC.noConfusion h

/-- C2: in every interleaved execution starting from the invocation of
`StopRecording` on a live session, once `StopRecording` has returned the
capture goroutine has terminated, and in every later reachable state the
audio buffer is exactly the buffer at return time — no byte (in
particular no sentinel appended afterwards) ever joins `rawSamples`, so
the encode step never overlaps an in-flight capture loop. -/
theorem c2_stop_recording_joins_capture (B : List Nat) (s sn : RecState)
    (hreach : RecReach (initRecState B) s) (hret : s.ctrl = .returned)
    (hlater : RecReach s sn) :
    s.cap = .terminated ∧ sn.audioData = s.audioData := by
  have hInv := recInv_reach B s hreach
  have hcap : s.cap = .terminated := hInv.1 (hInv.2 hret)
  refine ⟨hcap, ?_⟩
  have hfrozen : sn = s := by
    induction hlater with
    | refl => rfl
    | tail hr hstep ih =>
      rw [ih] at hstep
      exact absurd hstep (recStep_none_after_return _ _ hcap hret)
  rw [hfrozen]

theorem c2_stop_recording_joins_capture_witness :
    (RecReach (initRecState [])
      { isRecording := false, audioData := [], doneClosed := true,
        cap := .terminated, ctrl := .returned } ∧
     ({ isRecording := false, audioData := [], doneClosed := true,
        cap := .terminated, ctrl := .returned } : RecState).ctrl = .returned) ∧
    (({ isRecording := false, audioData := [], doneClosed := true,
        cap := .terminated, ctrl := .returned } : RecState).cap = .terminated ∧
     ([] : List Nat) = []) := by
  have htrace : RecReach (initRecState [])
      { isRecording := false, audioData := [], doneClosed := true,
        cap := .terminated, ctrl := .returned } := by
    refine Relation.ReflTransGen.tail (Relation.ReflTransGen.tail
      (Relation.ReflTransGen.tail (Relation.ReflTransGen.tail
        (Relation.ReflTransGen.tail Relation.ReflTransGen.refl
          (RecStep.stopSetFlag (initRecState []) rfl))
        (RecStep.stopKill _ rfl))
      (RecStep.checkFalse _ rfl rfl))
      (RecStep.finishCapture _ rfl))
      (RecStep.stopJoin _ rfl rfl)
  exact ⟨⟨htrace, rfl⟩,
    c2_stop_recording_joins_capture [] _ _ htrace rfl Relation.ReflTransGen.refl⟩

/-! ### StopRecording nil guards (C10) -/

/-- An OS process handle as `StopRecording` sees it: only whether the
process has already exited matters for `Kill`. -/
structure GoProcess where
  exited : Bool
  deriving Repr, DecidableEq

/-- `Process.Kill` result: an error when the process already finished,
none otherwise. `StopRecording` discards this value. -/
def processKill (p : GoProcess) : Option String :=
  if p.exited then some "os: process already finished" else none

/-- The observable effects of one `StopRecording` call. -/
structure StopEffects where
  sentKill : Bool
  waitedDone : Bool
  deriving Repr, DecidableEq

/-- `AudioRecorder.StopRecording` as a total function of the recorder's
`cmd` field (`none` when never assigned; `some none` for a command whose
`Process` is nil; `some (some p)` for a launched process) and of the
`recordingDone` channel (`none` when never made). The kill is attempted
only behind the `cmd != nil && cmd.Process != nil` guard, the receive
only behind `recordingDone != nil`, and the returned error is always
nil — the `Kill` error is ignored. Totality of this definition is the
no-panic property of the guards. -/
def stopRecordingFn (cmd : Option (Option GoProcess)) (done : Option Unit) :
    StopEffects × Option String :=
  match cmd with
  | some (some p) =>
    let _killErr := processKill p
    ({ sentKill := true, waitedDone := done.isSome }, none)
  | _ => ({ sentKill := false, waitedDone := done.isSome }, none)

/-- C10: on a recorder never started (`cmd` and `recordingDone` both nil)
`StopRecording` sends no kill signal, does not block on the done channel,
and returns nil without panicking; and killing an already-exited process
produces an error that is ignored, the call still returning nil. -/
theorem c10_stop_recording_nil_safe :
    stopRecordingFn none none = ({ sentKill := false, waitedDone := false }, none) ∧
    (∀ (done : Option Unit) (p : GoProcess), p.exited = true →
      processKill p = some "os: process already finished" ∧
      (stopRecordingFn (some (some p)) done).2 = none) := by
  refine ⟨rfl, fun done p hp => ⟨?_, rfl⟩⟩
  simp [processKill, hp]

theorem c10_stop_recording_nil_safe_witness :
    (⟨true⟩ : GoProcess).exited = true ∧
    (processKill ⟨true⟩ = some "os: process already finished" ∧
      (stopRecordingFn (some (some ⟨true⟩)) none).2 = none) ∧
    stopRecordingFn none none = ({ sentKill := false, waitedDone := false }, none) :=
  ⟨rfl, c10_stop_recording_nil_safe.2 none ⟨true⟩ rfl, c10_stop_recording_nil_safe.1⟩

end StoryShort
